import Mathlib

/-!
Verification of golang-talk (src/go_exp.go).

The file embeds, shallowly, the concurrency snippets of the source:

* the worker pool of `main`/`doit` (lines 71-103): `main` spawns
  `workerCount` workers running `doit`, sends the items `0, ..., workerCount-1`
  on the unbuffered channel `wq`, then closes `done` and waits.  Each
  rendezvous on `wq` hands one item to exactly one worker; `close(done)`
  happens, in program order, only after every send has completed.  This is
  modelled as a small-step transition system (`PoolStep`) over `PoolState`.
* the `done`-channel discipline (lines 86, 98, 153): consumers only receive
  from `done`; only the producer closes it.  Modelled syntactically by the
  per-goroutine operation lists and Go's panic rules for channels.
* the first-result race of `Query` (lines 436-447): every connection's
  goroutine runs `select { case ch <- result: ... default: }` against the
  single unbuffered channel `ch` on which the dispatcher blocks.  Modelled
  by folding the non-blocking send `trySend` over the results in completion
  order, starting from a state in which the dispatcher is already blocked at
  its receive; a `none` outcome means no send ever happened, i.e. the
  receive blocks forever.
* the timed select of lines 421-427 and the spec-level `Dispatch` (the
  dispatcher with timeout and error results exists only in the spec, not in
  src; it is modelled from the spec where a claim needs it).
* the slice-aliasing demos (lines 220-266), the loop-variable-capture demos
  (lines 77-79, 306-339) and the typed-nil-interface demos (lines 375-415),
  each embedded with explicit Go slice/closure/interface semantics.
-/

/-! ## Worker pool (src lines 71-103) -/

/-- State of the worker-pool program of `main`/`doit` (src lines 71-103).
`toSend` are the items `main` has not yet sent on `wq` (in program order);
`executed` is the log of rendezvous: `(workerId, item)` each time a worker's
`case m := <-wq` fires; `doneClosed` records whether `close(done)` (line 86)
has run; `workers i = true` while worker `i` is still in its `for`/`select`
loop. -/
structure PoolState where
  toSend : List Nat
  executed : List (Nat × Nat)
  doneClosed : Bool
  workers : List Bool
deriving DecidableEq, Repr

/-- The initial state of `main` (src lines 71-84): `workerCount = n` workers
spawned, items `0, ..., m-1` still to send, `done` open. -/
def initPool (n m : Nat) : PoolState :=
  { toSend := List.range m
    executed := []
    doneClosed := false
    workers := List.replicate n true }

/-- One scheduler step of the pool program.  `deliver`: the rendezvous
`wq <- i` (line 83) with `case m := <-wq` in some running worker (line 96);
sends precede `close(done)` in `main`'s program order, hence
`doneClosed = false`.  `closeDone`: line 86, which `main` reaches only after
all its sends completed.  `workerExit`: a worker's `case <-done` branch
(lines 98-100), enabled only once `done` is closed. -/
inductive PoolStep : PoolState → PoolState → Prop where
  | deliver (s : PoolState) (w item : Nat) (rest : List Nat)
      (hq : s.toSend = item :: rest)
      (hw : s.workers.getD w false = true)
      (hd : s.doneClosed = false) :
      PoolStep s { s with toSend := rest, executed := s.executed ++ [(w, item)] }
  | closeDone (s : PoolState)
      (hq : s.toSend = [])
      (hd : s.doneClosed = false) :
      PoolStep s { s with doneClosed := true }
  | workerExit (s : PoolState) (w : Nat)
      (hw : s.workers.getD w false = true)
      (hd : s.doneClosed = true) :
      PoolStep s { s with workers := s.workers.set w false }

/-- Reachability under `PoolStep`. -/
inductive PoolReach : PoolState → PoolState → Prop where
  | refl (s : PoolState) : PoolReach s s
  | tail {s t u : PoolState} : PoolReach s t → PoolStep t u → PoolReach s u

/-! ## Channel-operation discipline on `done` (src lines 86, 98, 146-163) -/

/-- The three operations Go offers on a channel. -/
inductive ChanOp where
  | send : ChanOp
  | recv : ChanOp
  | close : ChanOp
deriving DecidableEq, BEq, Repr

/-- Whether the `done` channel is still open or already closed. -/
inductive DoneState where
  | opened : DoneState
  | closed : DoneState
deriving DecidableEq, Repr

/-- Go's panic rule on a closed channel (src lines 105-111): receiving from
a closed channel is safe; sending to, or closing, a closed channel panics. -/
def opPanics : DoneState → ChanOp → Bool
  | DoneState.closed, ChanOp.send => true
  | DoneState.closed, ChanOp.close => true
  | DoneState.closed, ChanOp.recv => false
  | DoneState.opened, _ => false

/-- The operations `doit` performs on its `done` channel: the single receive
`case <- done` at src line 98. -/
def doitDoneOps : List ChanOp := [ChanOp.recv]

/-- The operations each racer goroutine of the fixed first-result program
performs on `done`: the single receive `case <- done` at src line 153. -/
def racerDoneOps : List ChanOp := [ChanOp.recv]

/-- The operations the producing `main` goroutines perform on `done`:
exactly one `close(done)` (src lines 86 and 160). -/
def mainDoneOps : List ChanOp := [ChanOp.close]

/-! ## First-result race: `Query` (src lines 436-447) -/

/-- State of the unbuffered channel `ch` of `Query` together with its single
receiver: `receiverWaiting` is true while the dispatcher is blocked at
`return <-ch` and no send has been taken; `delivered` is the value of the
one send that paired with that receive, if any. -/
structure SlotState where
  receiverWaiting : Bool
  delivered : Option Nat
deriving DecidableEq, Repr

/-- The `select` of each `Query` goroutine (src lines 440-443):
`case ch <- c.DoQuery(query):` fires iff the receiver is still blocked at
`<-ch`; otherwise the `default:` branch fires and the send is skipped.
Either way the goroutine finishes in this one step. -/
def trySend (st : SlotState) (r : Nat) : SlotState :=
  if st.receiverWaiting then { receiverWaiting := false, delivered := some r }
  else st

/-- The channel/receiver state once the dispatcher has reached its blocking
receive `return <-ch` (src line 446) and before any goroutine's select. -/
def slotInit : SlotState := { receiverWaiting := true, delivered := none }

/-- The race of `Query` (src lines 436-447), parametrised by the values
`c.DoQuery(query)` of the connections listed in completion order: each
goroutine in turn executes its non-blocking send. -/
def runRace (arrivals : List Nat) : SlotState :=
  arrivals.foldl trySend slotInit

/-- The value `Query` returns: the result delivered to `return <-ch`.
`none` means no send ever fired, i.e. the receive at src line 446 blocks
forever and `Query` never returns. -/
def Query (arrivals : List Nat) : Option Nat :=
  (runRace arrivals).delivered

/-- Outcome of the fixed racer's select at src lines 151-154:
`ch <- v` races `<-done`.  `none` means neither branch is ready and the
goroutine stays blocked. -/
inductive RacerOutcome where
  | sent : RacerOutcome
  | exited : RacerOutcome
deriving DecidableEq, Repr

/-- The select at src lines 151-154, as a function of whether the receiver
on `ch` is ready and whether `done` has been closed. -/
def racerStep (receiverReady : Bool) (doneClosed : Bool) : Option RacerOutcome :=
  if receiverReady then some RacerOutcome.sent
  else if doneClosed then some RacerOutcome.exited
  else none

/-! ## Timed select (src lines 421-427) and the spec-level dispatcher -/

/-- Error component of the spec-level `Dispatch` result: `ok` is Go's `nil`
error. -/
inductive DispatchErr where
  | ok : DispatchErr
  | timedOut : DispatchErr
  | allFailed : DispatchErr
deriving DecidableEq, Repr

/-- The successful attempt results that arrive strictly before the timer of
`time.After` fires, as `(completionTime, result)` pairs.  An attempt is a
`(completionTime, outcome)` pair, `outcome = none` meaning the underlying
call reported failure. -/
def successesBefore (attempts : List (Nat × Option Nat)) (t : Nat) :
    List (Nat × Nat) :=
  attempts.filterMap (fun a =>
    match a.2 with
    | some r => if a.1 < t then some (a.1, r) else none
    | none => none)

/-- The earliest element of a list of `(time, result)` pairs (first one in
list order among ties). -/
def earliestArrival : List (Nat × Nat) → Option (Nat × Nat)
  | [] => none
  | x :: xs =>
    match earliestArrival xs with
    | none => some x
    | some b => if b.1 < x.1 then some b else some x

/-- Modelled from the spec: `Dispatcher.Dispatch(sources, query, timeout)`.
src has no dispatcher with a timeout — `Query` (lines 436-447) takes no
timeout and returns no error, and the timed select (lines 421-427) is a
free-standing fragment — so the spec's contract (section 4.2) is modelled
here: the dispatcher's single blocking receive races the result slot
against a timer armed with `timeout` (the fragment of lines 421-427);
it returns `(result, nil)` for the first success before the timer fires,
`(zero, AllFailed)` if every attempt reports failure before the timer
fires, and `(zero, Timeout)` if the timer fires first. -/
def Dispatch (attempts : List (Nat × Option Nat)) (timeout : Nat) :
    Nat × DispatchErr :=
  match earliestArrival (successesBefore attempts timeout) with
  | some p => (p.2, DispatchErr.ok)
  | none =>
    if attempts.all (fun a => a.1 < timeout) then (0, DispatchErr.allFailed)
    else (0, DispatchErr.timedOut)

/-- The (logical) time at which the dispatcher's single blocking receive
completes: the winning success's completion time, the moment the last
failure arrives when all attempts fail early, or the timer's deadline. -/
def dispatchTime (attempts : List (Nat × Option Nat)) (timeout : Nat) : Nat :=
  match earliestArrival (successesBefore attempts timeout) with
  | some p => p.1
  | none =>
    if attempts.all (fun a => a.1 < timeout) then
      (attempts.map (fun a => a.1)).foldr max 0
    else timeout

/-! ## Spec-level pool shutdown -/

/-- Go's `close` on the `done` channel (src line 86), with Go's panic rule:
closing an already-closed channel panics (`none`). -/
def closeDoneChan : DoneState → Option DoneState
  | DoneState.opened => some DoneState.closed
  | DoneState.closed => none

/-- The pool state the spec-level `Shutdown` acts on: just the cancellation
channel. -/
structure SpecPool where
  done : DoneState
deriving DecidableEq, Repr

/-- Modelled from the spec: `Pool.Shutdown(drain)` (spec section 4.1).  src
has no `Shutdown` API — the demo raises cancellation once, by `close(done)`
at line 86, and never calls it twice — so the spec's contract "Idempotent —
calling twice is a no-op, not an error. Raises CancellationSignal exactly
once" is modelled: the close is guarded so that it runs only when the
signal has not been raised yet. -/
def Shutdown (p : SpecPool) : Option SpecPool :=
  match p.done with
  | DoneState.closed => some p
  | DoneState.opened => (closeDoneChan p.done).map (fun d => { done := d })

/-- How many times a `Shutdown` call from state `p` actually closes the
cancellation channel. -/
def shutdownCloses (p : SpecPool) : Nat :=
  match p.done with
  | DoneState.opened => 1
  | DoneState.closed => 0

/-! ## Byte-slice aliasing (src lines 220-266) -/

/-- A Go slice header: the id of its underlying array in the store, the
offset of its first element in that array, its length and its capacity. -/
structure GoSlice where
  base : Nat
  off : Nat
  len : Nat
  cap : Nat
deriving DecidableEq, Repr

/-- The store of underlying byte arrays, indexed by array id. -/
abbrev GoMem := List (List Char)

/-- The contents of underlying array `i`. -/
def readArr (m : GoMem) (i : Nat) : List Char :=
  (List.getD m i [])

/-- The bytes a slice views: `len` bytes of its array starting at `off`. -/
def sliceBytes (m : GoMem) (s : GoSlice) : List Char :=
  ((readArr m s.base).drop s.off).take s.len

/-- Overwrite array `a` in place starting at position `i` with `xs`. -/
def writeAt (a : List Char) (i : Nat) (xs : List Char) : List Char :=
  a.take i ++ xs ++ a.drop (i + xs.length)

/-- Go's `append(s, xs...)`: if the free capacity beyond `len` suffices, the
new bytes are written into the shared underlying array in place (this is
what corrupts `dir2` at src line 228); otherwise a fresh array is allocated
and the slice re-based onto it (what the full slice expression forces at
src line 259). -/
def appendBytes (m : GoMem) (s : GoSlice) (xs : List Char) :
    GoMem × GoSlice :=
  if s.len + xs.length ≤ s.cap then
    (m.set s.base (writeAt (readArr m s.base) (s.off + s.len) xs),
     { s with len := s.len + xs.length })
  else
    (m ++ [sliceBytes m s ++ xs],
     { base := m.length, off := 0, len := s.len + xs.length,
       cap := s.len + xs.length })

/-- The two-index slice expression `s[lo:hi]`: capacity extends to the end
of the original slice's capacity. -/
def slice2 (s : GoSlice) (lo hi : Nat) : GoSlice :=
  { base := s.base, off := s.off + lo, len := hi - lo, cap := s.cap - lo }

/-- The full (three-index) slice expression `s[lo:hi:mx]` (src line 254):
capacity is clamped to `mx - lo`. -/
def slice3 (s : GoSlice) (lo hi mx : Nat) : GoSlice :=
  { base := s.base, off := s.off + lo, len := hi - lo, cap := mx - lo }

/-- `bytes.IndexByte` over the bytes of a slice. -/
def indexByte (m : GoMem) (s : GoSlice) (c : Char) : Nat :=
  (sliceBytes m s).findIdx (fun b => b == c)

/-- The bytes of `path` at src lines 221 and 252. -/
def pathChars : List Char := "AAAA/BBBBBBBBB".toList

/-- The bytes appended at src lines 228 and 259. -/
def suffixChars : List Char := "suffix".toList

/-- The store after `path := []byte("AAAA/BBBBBBBBB")`: one array. -/
def pathMem : GoMem := [pathChars]

/-- The slice header of `path` itself: array 0, full view. -/
def pathSlice : GoSlice := { base := 0, off := 0, len := 14, cap := 14 }

/-- `sepIndex := bytes.IndexByte(path, '/')` (src lines 222 and 253). -/
def sepIndex : Nat := indexByte pathMem pathSlice '/'

/-- `dir1 := path[:sepIndex]` (src line 223, the aliasing variant). -/
def dir1Plain : GoSlice := slice2 pathSlice 0 sepIndex

/-- `dir1 := path[:sepIndex:sepIndex]` (src line 254, full slice
expression). -/
def dir1Full : GoSlice := slice3 pathSlice 0 sepIndex sepIndex

/-- `dir2 := path[sepIndex+1:]` (src lines 224 and 255). -/
def dir2Slice : GoSlice := slice2 pathSlice (sepIndex + 1) pathSlice.len

/-- Store and slice after `dir1 = append(dir1, "suffix"...)` in the
aliasing variant (src line 228). -/
def plainAppend : GoMem × GoSlice := appendBytes pathMem dir1Plain suffixChars

/-- Store and slice after `dir1 = append(dir1, "suffix"...)` in the full
slice expression variant (src line 259). -/
def fullAppend : GoMem × GoSlice := appendBytes pathMem dir1Full suffixChars

/-! ## Loop variables and closures (src lines 77-79, 306-339) -/

/-- The closures built by the loop at src lines 309-313: each `func()`
captures the single shared loop variable `v` and only reads it when the
goroutine runs. -/
def capturedClosures {α : Type} (data : List α) : List (Option α → Option α) :=
  data.map (fun _ => fun sharedVar => sharedVar)

/-- The value left in the shared loop variable once the `range` loop has
finished — the last element (the goroutines run during the `time.Sleep`
at src line 315, after the loop). -/
def loopVarAfter {α : Type} (data : List α) : Option α := data.getLast?

/-- What the goroutines of the capturing variant (src lines 306-317) print:
each closure applied to the shared variable's final value. -/
def runCapture {α : Type} (data : List α) : List (Option α) :=
  (capturedClosures data).map (fun f => f (loopVarAfter data))

/-- The closures built by the loop at src lines 331-335: `func(in string)`
is invoked as `(v)` at spawn time, so each closure owns a copy of the
element it was spawned for. -/
def paramClosures {α : Type} (data : List α) : List (Unit → α) :=
  data.map (fun v => fun _ => v)

/-- What the goroutines of the parameter-passing variant (src lines
328-339) print. -/
def runParam {α : Type} (data : List α) : List α :=
  (paramClosures data).map (fun f => f ())

/-- The worker ids observed by `doit` when `main` spawns
`go doit(i, wq, done, &wg)` (src lines 77-79): `i` is an argument,
evaluated at spawn time. -/
def spawnedWorkerIds (workerCount : Nat) : List Nat :=
  (List.range workerCount).map (fun i => i)

/-! ## Typed nil inside an interface (src lines 375-415) -/

/-- A Go `interface{}` value as the demos use it: either the nil interface
(type and value both unset) or an interface holding a `*struct{}` value —
whose pointer may itself be nil (`none`). -/
inductive GoIface where
  | nilIface : GoIface
  | ptrStruct (p : Option Unit) : GoIface
deriving DecidableEq, Repr

/-- Go's `res != nil` test on an interface (src lines 346, 386, 410): an
interface compares equal to nil only when it holds no type at all; an
interface holding a typed nil pointer is not nil. -/
def ifaceEqNil : GoIface → Bool
  | GoIface.nilIface => true
  | GoIface.ptrStruct _ => false

/-- The first `doit` closure (src lines 376-384): `result` is a `*struct{}`
that stays nil unless `arg > 0`, and is returned through the interface in
either case. -/
def doitTypedNil (arg : Int) : GoIface :=
  let result : Option Unit := if arg > 0 then some () else none
  GoIface.ptrStruct result

/-- The corrected `doit` closure (src lines 398-408): when `arg ≤ 0` it
returns a literal `nil` instead of the typed nil pointer. -/
def doitExplicitNil (arg : Int) : GoIface :=
  if arg > 0 then GoIface.ptrStruct (some ()) else GoIface.nilIface

/-! ## Theorems -/

/-- Any list of late non-blocking sends leaves an already-taken slot
untouched: once the receiver is gone every remaining `select` takes its
`default` branch. -/
theorem foldl_trySend_frozen (late : List Nat) (st : SlotState)
    (h : st.receiverWaiting = false) : late.foldl trySend st = st := by
  induction late with
  | nil => rfl
  | cons a l ih =>
    have hstep : trySend st a = st := by simp [trySend, h]
    rw [List.foldl_cons, hstep, ih]

/-- Invariant of the pool program: the items logged as executed, in order,
followed by the items still to send, are exactly the submitted items. -/
theorem poolReach_invariant {n m : Nat} {s : PoolState}
    (h : PoolReach (initPool n m) s) :
    s.executed.map Prod.snd ++ s.toSend = List.range m := by
  induction h with
  | refl => simp [initPool]
  | tail hr hstep ih =>
    cases hstep with
    | deliver w item rest hq hw hd =>
      simp only [List.map_append, List.map_cons, List.map_nil,
        List.append_assoc, List.singleton_append]
      rw [← hq]
      exact ih
    | closeDone hq hd => exact ih
    | workerExit w hw hd => exact ih

/-- C1: for every worker count `n ≥ 1` and item count `m ≥ 0`, in every
reachable state of the pool program in which all items have been handed
over (`toSend = []`) — shutdown, by program order, can only happen after
that point — the execution log contains every submitted item, each
delivered to exactly one worker by exactly one rendezvous: no item is
lost and none is executed twice. -/
theorem pool_exactly_once (n m : Nat) (s : PoolState)
    (hn : 1 ≤ n) (hr : PoolReach (initPool n m) s) (hq : s.toSend = []) :
    s.executed.map Prod.snd = List.range m ∧
    ∀ item : Nat, item < m →
      (s.executed.filter (fun p => p.2 == item)).length = 1 := by
  have hinv := poolReach_invariant hr
  rw [hq, List.append_nil] at hinv
  refine ⟨hinv, ?_⟩
  intro item hitem
  have h1 : (s.executed.filter (fun p => p.2 == item)).length
      = s.executed.countP (fun p => p.2 == item) :=
    (List.countP_eq_length_filter _ _).symm
  have h2 : (s.executed.map Prod.snd).countP (fun x => x == item)
      = s.executed.countP (fun p => p.2 == item) := by
    rw [List.countP_map]; rfl
  rw [h1, ← h2]
  have h3 : (s.executed.map Prod.snd).countP (fun x => x == item)
      = (s.executed.map Prod.snd).count item := rfl
  rw [h3, hinv]
  exact List.count_eq_one_of_mem (List.nodup_range m) (List.mem_range.mpr hitem)

/-- Witness for C1: one worker, one item, the run that delivers item `0` to
worker `0` and stops. -/
theorem pool_exactly_once_witness :
    (PoolState.mk [] [(0, 0)] false [true]).executed.map Prod.snd
      = List.range 1 ∧
    ((PoolState.mk [] [(0, 0)] false [true]).executed.filter
      (fun p => p.2 == 0)).length = 1 := by
  have h := pool_exactly_once 1 1 (PoolState.mk [] [(0, 0)] false [true])
    (by decide)
    (PoolReach.tail (PoolReach.refl (initPool 1 1))
      (PoolStep.deliver (initPool 1 1) 0 0 [] (by decide) (by decide)
        (by decide)))
    rfl
  exact ⟨h.1, h.2 0 (by decide)⟩

/-- C2: when some connection completes fastest, its result is the one
delivered to the dispatcher's blocking receive — `Query` returns it — and
afterwards the slot is retired, so the slower sources (the tail of the
completion order) finish without effect and without blocking even though
the dispatcher has already returned; on the spec-level `Dispatch` the same
scenario (three sources, the second fastest with result 42) yields
`(42, nil)`. -/
theorem query_first_wins (r : Nat) (rest : List Nat) :
    Query (r :: rest) = some r ∧
    runRace (r :: rest) = { receiverWaiting := false, delivered := some r } ∧
    Dispatch [(50, some 7), (10, some 42), (80, none)] 100
      = (42, DispatchErr.ok) := by
  have hrun : runRace (r :: rest)
      = { receiverWaiting := false, delivered := some r } := by
    unfold runRace
    rw [List.foldl_cons]
    exact foldl_trySend_frozen rest _ rfl
  exact ⟨by rw [Query, hrun], hrun, by decide⟩

/-- Witness for C2 at the completion order `42, 10, 7`. -/
theorem query_first_wins_witness :
    Query [42, 10, 7] = some 42 ∧
    runRace [42, 10, 7] = { receiverWaiting := false, delivered := some 42 } ∧
    Dispatch [(50, some 7), (10, some 42), (80, none)] 100
      = (42, DispatchErr.ok) :=
  query_first_wins 42 [10, 7]

/-- C3: every operation a consumer performs on the broadcast cancellation
channel `done` is a receive — `doit` (src line 98) and the racer goroutines
(src line 153) never send on it; only the producer closes it (src lines 86,
160) — and a receive never panics, on an open or a closed channel, so the
send-on-closed-channel panic cannot occur on `done`. -/
theorem done_channel_receive_only :
    doitDoneOps = [ChanOp.recv] ∧
    racerDoneOps = [ChanOp.recv] ∧
    doitDoneOps.contains ChanOp.send = false ∧
    racerDoneOps.contains ChanOp.send = false ∧
    mainDoneOps = [ChanOp.close] ∧
    opPanics DoneState.opened ChanOp.recv = false ∧
    opPanics DoneState.closed ChanOp.recv = false := by decide

/-- C4: an attempt that has lost the race — the receiver is no longer
waiting — completes its write step as a single no-op (`default` branch):
the slot is unchanged and the attempt never blocks, whatever further
arrivals follow; likewise the `done`-racer variant's select completes with
the `exited` outcome once `done` is closed even when no receiver is
ready. -/
theorem attempt_write_nonblocking (st : SlotState) (r : Nat)
    (hlost : st.receiverWaiting = false) :
    trySend st r = st ∧
    (∀ late : List Nat, late.foldl trySend st = st) ∧
    racerStep false true = some RacerOutcome.exited := by
  exact ⟨by simp [trySend, hlost],
    fun late => foldl_trySend_frozen late st hlost, rfl⟩

/-- Witness for C4 at the retired slot holding result `7`. -/
theorem attempt_write_nonblocking_witness :
    trySend (SlotState.mk false (some 7)) 3 = SlotState.mk false (some 7) ∧
    [1, 2].foldl trySend (SlotState.mk false (some 7))
      = SlotState.mk false (some 7) ∧
    racerStep false true = some RacerOutcome.exited := by
  have h := attempt_write_nonblocking (SlotState.mk false (some 7)) 3 rfl
  exact ⟨h.1, h.2.1 [1, 2], h.2.2⟩

/-- C5: for every pool, `Shutdown` succeeds (no panic), leaves the
cancellation signal raised, and a second call is a no-op producing the same
end state as one call; the channel close itself runs exactly once — once
from a fresh pool, and zero times on any later call. -/
theorem shutdown_idempotent (p : SpecPool) :
    Shutdown p = some { done := DoneState.closed } ∧
    (Shutdown p).bind Shutdown = Shutdown p ∧
    shutdownCloses { done := DoneState.closed } = 0 ∧
    shutdownCloses { done := DoneState.opened } = 1 := by
  rcases p with ⟨d⟩
  cases d <;> exact ⟨rfl, rfl, rfl, rfl⟩

/-- Witness for C5 at the fresh (open) pool. -/
theorem shutdown_idempotent_witness :
    Shutdown (SpecPool.mk DoneState.opened)
      = some (SpecPool.mk DoneState.closed) ∧
    (Shutdown (SpecPool.mk DoneState.opened)).bind Shutdown
      = Shutdown (SpecPool.mk DoneState.opened) := by
  have h := shutdown_idempotent (SpecPool.mk DoneState.opened)
  exact ⟨h.1, h.2.1⟩

/-- C6 counterexample: with zero connections `Query` spawns no goroutine,
so no send on `ch` ever fires: nothing is delivered and the receiver is
still waiting — the receive `return <-ch` at src line 446 blocks forever,
so `Query` does not return `AllFailed` (or anything) immediately. -/
theorem query_empty_counterexample :
    Query [] = none ∧ (runRace []).receiverWaiting = true := by decide

/-- C6 (amended): called with an empty connection list, `Query` starts no
attempt, the slot stays in its initial state, and the dispatcher's blocking
receive never completes: the call blocks indefinitely rather than returning
`AllFailed` immediately (src's `Query` has no error results at all). -/
theorem query_empty_blocks :
    runRace [] = slotInit ∧ Query [] = none := by decide

/-- C7 counterexample: a dispatch in which no source produces a successful
result before the timeout need not be won by the timer — when the sole
source reports failure at time 10, well before the deadline 100, `Dispatch`
returns `(0, AllFailed)` (as the spec's section 4.2 itself mandates for
early failures), not `(0, Timeout)`. -/
theorem dispatch_early_failures_counterexample :
    Dispatch [(10, none)] 100 = (0, DispatchErr.allFailed) ∧
    decide (Dispatch [(10, none)] 100 = (0, DispatchErr.timedOut)) = false := by
  decide

/-- C7 (amended): when every attempt completes no earlier than the deadline
— so no source produces any result, successful or failed, before the
timeout — the timer wins the dispatcher's single blocking receive:
`Dispatch` returns the zero result with the `Timeout` error, at exactly
the deadline (the timer of src lines 421-427 fires at `timeout`). -/
theorem dispatch_timeout (attempts : List (Nat × Option Nat)) (timeout : Nat)
    (hne : attempts ≠ [])
    (hblock : ∀ a ∈ attempts, timeout ≤ a.1) :
    Dispatch attempts timeout = (0, DispatchErr.timedOut) ∧
    dispatchTime attempts timeout = timeout := by
  have hsucc : successesBefore attempts timeout = [] := by
    refine List.filterMap_eq_nil_iff.mpr ?_
    intro a ha
    rcases a with ⟨t, o⟩
    cases o with
    | none => rfl
    | some v =>
      have hle : timeout ≤ t := hblock (t, some v) ha
      simp only [successesBefore]
      rw [if_neg (Nat.not_lt.mpr hle)]
  have hall : attempts.all (fun a => a.1 < timeout) = false := by
    rcases attempts with _ | ⟨a, rest⟩
    · exact absurd rfl hne
    · have h1 : timeout ≤ a.1 := hblock a (List.mem_cons_self a rest)
      have h2 : decide (a.1 < timeout) = false :=
        decide_eq_false (Nat.not_lt.mpr h1)
      simp [List.all_cons, h2]
  constructor
  · unfold Dispatch
    rw [hsucc]
    simp [earliestArrival, hall]
  · unfold dispatchTime
    rw [hsucc]
    simp [earliestArrival, hall]

/-- Witness for C7: two sources, one succeeding at 200 and one failing at
300, against a deadline of 100. -/
theorem dispatch_timeout_witness :
    Dispatch [(200, some 5), (300, none)] 100 = (0, DispatchErr.timedOut) ∧
    dispatchTime [(200, some 5), (300, none)] 100 = 100 :=
  dispatch_timeout [(200, some 5), (300, none)] 100 (by decide) (by decide)

/-- C8: in the parameter-passing pattern each spawned unit observes exactly
the element it was spawned for — `runParam` reproduces the input list, and
the worker ids passed by value to `doit` are `0, ..., n-1` — whereas the
closure-capturing variant makes every unit observe the shared loop
variable's final value. -/
theorem spawn_copies_input {α : Type} (data : List α) (n : Nat) :
    runParam data = data ∧
    spawnedWorkerIds n = List.range n ∧
    runCapture data = data.map (fun _ => data.getLast?) := by
  refine ⟨?_, ?_, ?_⟩
  · unfold runParam paramClosures
    rw [List.map_map]
    exact List.map_id data
  · simp [spawnedWorkerIds]
  · unfold runCapture capturedClosures
    rw [List.map_map]
    rfl

/-- Witness for C8 at the three-element input `10, 20, 30` and two
workers. -/
theorem spawn_copies_input_witness :
    runParam [10, 20, 30] = [10, 20, 30] ∧
    spawnedWorkerIds 2 = List.range 2 ∧
    runCapture [10, 20, 30] = [some 30, some 30, some 30] := by
  have h := spawn_copies_input [10, 20, 30] 2
  exact ⟨h.1, h.2.1, (h.2.2).trans (by decide)⟩

/-- C9: before the append, `dir2` views `BBBBBBBBB`; appending `suffix` to
the plain reslice `path[:sepIndex]` writes through the shared underlying
array and `dir2` becomes `uffixBBBB`, while with the full slice expression
`path[:sepIndex:sepIndex]` the append allocates a fresh array, so `dir2`
still views `BBBBBBBBB` and the original path bytes are unchanged; in both
variants `dir1` itself reads `AAAAsuffix`. -/
theorem slice_alias_vs_full_slice :
    sliceBytes pathMem dir2Slice = "BBBBBBBBB".toList ∧
    sliceBytes plainAppend.1 dir2Slice = "uffixBBBB".toList ∧
    sliceBytes fullAppend.1 dir2Slice = "BBBBBBBBB".toList ∧
    readArr fullAppend.1 0 = pathChars ∧
    sliceBytes plainAppend.1 plainAppend.2 = "AAAAsuffix".toList ∧
    sliceBytes fullAppend.1 fullAppend.2 = "AAAAsuffix".toList := by decide

/-- C10: for `arg ≤ 0` the first `doit` returns an interface holding a
typed nil `*struct{}` pointer, and that interface is not `nil` — the
caller's `res != nil` branch is taken — while the corrected variant returns
the literal `nil` interface, which does compare equal to `nil`. -/
theorem typed_nil_iface (arg : Int) (h : arg ≤ 0) :
    doitTypedNil arg = GoIface.ptrStruct none ∧
    ifaceEqNil (doitTypedNil arg) = false ∧
    ifaceEqNil (doitExplicitNil arg) = true := by
  have hng : ¬ (arg > 0) := not_lt.mpr h
  have h1 : doitTypedNil arg = GoIface.ptrStruct none := by
    unfold doitTypedNil
    rw [if_neg hng]
  have h2 : doitExplicitNil arg = GoIface.nilIface := by
    unfold doitExplicitNil
    rw [if_neg hng]
  exact ⟨h1, by rw [h1]; rfl, by rw [h2]; rfl⟩

/-- Witness for C10 at `arg = -1`, the argument the source calls `doit`
with (src lines 386 and 410). -/
theorem typed_nil_iface_witness :
    doitTypedNil (-1) = GoIface.ptrStruct none ∧
    ifaceEqNil (doitTypedNil (-1)) = false ∧
    ifaceEqNil (doitExplicitNil (-1)) = true :=
  typed_nil_iface (-1) (by decide)
